import Mathlib

/-!
Shallow embedding of the electron-fetch core (src/src/index.js and
src/src/request.js) for checking the natural-language specification.

The second (latest) copy of index.js in src/src/index.js is the authoritative
orchestrator; request.js appears once.  The auxiliary modules headers.js and
body.js are not under src/, so the header container and the body byte-length
helpers are modelled from the spec (sections 3, 4.1, 4.2, 4.3) and marked as
such in their doc comments.
-/

deriving instance DecidableEq for Except

namespace ElectronFetch

/-- Case folding used for header-name comparison (ASCII lower-casing, as the
spec's case-insensitive HeaderMap requires); written over the character list
so it reduces definitionally. -/
def lowerName (s : String) : String := String.mk (s.data.map Char.toLower)

/-- The toUpperCase normalization applied to the method (ASCII upper-casing);
written over the character list so it reduces definitionally. -/
def upperName (s : String) : String := String.mk (s.data.map Char.toUpper)

/-- Modelled from the spec: headers.js is not under src/.  HeaderMap is a
case-insensitive container from names to ordered value lists (spec section 3).
Iteration order is lexicographic per the spec, so the order of the underlying
entry list is not observable; operations below therefore keep entries in any
convenient order while preserving the case-insensitive get/set/has/delete
behaviour. -/
structure Headers where
  entries : List (String × List String)
deriving DecidableEq

/-- Spec 4.1: presence test, case-insensitive on the name. -/
def Headers.has (h : Headers) (name : String) : Bool :=
  h.entries.any (fun e => lowerName e.1 == lowerName name)

/-- Spec 4.1: get returns all values for a name joined by a comma, or null. -/
def Headers.get (h : Headers) (name : String) : Option String :=
  (h.entries.find? (fun e => lowerName e.1 == lowerName name)).map
    (fun e => String.intercalate "," e.2)

/-- Spec 4.1: delete removes every value stored under the (case-folded) name. -/
def Headers.delete (h : Headers) (name : String) : Headers :=
  ⟨h.entries.filter (fun e => !(lowerName e.1 == lowerName name))⟩

/-- Spec 4.1: set replaces all prior values of the name by the single value. -/
def Headers.set (h : Headers) (name v : String) : Headers :=
  ⟨(h.delete name).entries ++ [(name, [v])]⟩

/-- Spec 4.1: append adds one value after the existing values of the name. -/
def Headers.append (h : Headers) (name v : String) : Headers :=
  if h.has name then
    ⟨h.entries.map (fun e =>
      if lowerName e.1 == lowerName name then (e.1, e.2 ++ [v]) else e)⟩
  else ⟨h.entries ++ [(name, [v])]⟩

/-- Modelled from the spec: body.js is not under src/.  A request body is one
of the tagged shapes of spec section 3 (Body).  Shapes with a statically known
byte length carry it; a multipart form carries a length only when already
materialized; a plain stream has no known length.  The blob shape also carries
its declared MIME type (spec 4.3, default Content-Type computation). -/
inductive BodyVal where
  | bstring (len : Nat)
  | bbuffer (len : Nat)
  | bblob (len : Nat) (ctype : String)
  | bmultipart (len : Option Nat)
  | bstream
deriving DecidableEq

/-- Modelled from the spec (4.3, Content-Length computation): the statically
known byte length of a body, when there is one. -/
def getTotalBytes : BodyVal → Option Nat
  | .bstring n => some n
  | .bbuffer n => some n
  | .bblob n _ => some n
  | .bmultipart o => o
  | .bstream => none

/-- Modelled from the spec (4.3): the default Content-Type derived from the
body shape; text gets text/plain;charset=UTF-8, a blob its declared type when
non-empty, and buffer/stream/multipart no default. -/
def extractContentType : BodyVal → Option String
  | .bstring _ => some "text/plain;charset=UTF-8"
  | .bbuffer _ => none
  | .bblob _ t => if t == "" then none else some t
  | .bmultipart _ => none
  | .bstream => none

/-- Result of Node's url.parse, restricted to the fields the embedded code
reads.  The url module is an external collaborator; href stands for the
round-trip format(parse(url)) string that the url getter returns. -/
structure ParsedURL where
  protocol : Option String
  hostname : Option String
  href : String
deriving DecidableEq

/-- The Request object of src/src/request.js, with the fields its constructor
assigns.  The hidden PARSED_URL symbol is the parsedURL field. -/
structure Request where
  method : String
  redirect : String
  headers : Headers
  chunkedEncoding : Bool
  useElectronNet : Bool
  follow : Nat
  counter : Nat
  timeout : Nat
  size : Nat
  session : Option Nat
  body : Option BodyVal
  parsedURL : ParsedURL
deriving DecidableEq

/-- The url getter of Request: formatURL of the stored parsed URL, modelled by
the href field of ParsedURL. -/
def Request.url (r : Request) : String := r.parsedURL.href

/-- JavaScript truthiness of an optional string: undefined, null and the empty
string are falsy. -/
def jsTruthyStr : Option String → Bool
  | none => false
  | some s => !(s == "")

/-- JavaScript a-or-b defaulting on strings (the empty string is falsy). -/
def jsOrStr (a : Option String) (b : String) : String :=
  match a with
  | some s => if s == "" then b else s
  | none => b

/-- JavaScript a-or-b defaulting on numbers (zero is falsy). -/
def jsOrNat (a : Option Nat) (b : Nat) : Nat :=
  match a with
  | some n => if n == 0 then b else n
  | none => b

/-- The init options record accepted by the Request constructor.  The compress
field is carried because the external interface documents such an option; the
constructor of src/src/request.js never reads it, which the embedding below
reproduces by ignoring the field. -/
structure RequestInit where
  method : Option String
  body : Option BodyVal
  headers : Option Headers
  redirect : Option String
  follow : Option Nat
  counter : Option Nat
  timeout : Option Nat
  size : Option Nat
  useElectronNet : Option Bool
  session : Option Nat
  compress : Option Bool
deriving DecidableEq

/-- The input argument of the Request constructor: a URL (already run through
the external url.parse) or a prior Request instance. -/
inductive RequestInput where
  | url (p : ParsedURL)
  | req (r : Request)
deriving DecidableEq

/-- The supplied method after JavaScript defaulting, before uppercasing:
init.method or input.method or GET (request.js line 39).  For a URL input the
constructor replaces input by an empty object, so input.method is undefined. -/
def suppliedMethod (input : RequestInput) (init : RequestInit) : String :=
  jsOrStr init.method
    (jsOrStr (match input with | .url _ => none | .req r => some r.method) "GET")

/-- Whether a body is being supplied: init.body is non-null, or the input is a
prior Request whose body is non-null (request.js line 41). -/
def bodySupplied (input : RequestInput) (init : RequestInit) : Bool :=
  !(init.body == none) ||
    (match input with | .url _ => false | .req r => !(r.body == none))

/-- The useElectronNet selection of the constructor before the environment
default (request.js lines 62 to 64): init.useElectronNet when defined, else
the input request's value, else undefined. -/
def requestUEOpt (input : RequestInput) (init : RequestInit) : Option Bool :=
  match init.useElectronNet with
  | some b => some b
  | none => match input with
    | .req r => some r.useElectronNet
    | .url _ => none

/-- The Request constructor of src/src/request.js (lines 20 to 96), embedded
as a fallible function.  electronAvailable stands for the environment check
Boolean(process.versions.electron).  Cloning the body of a prior unconsumed
request (body.js clone, not under src/) is modelled as reusing the body value,
which the spec describes as a tee producing the same bytes. -/
def requestNew (electronAvailable : Bool) (input : RequestInput)
    (init : RequestInit) : Except String Request :=
  let parsedURL := match input with
    | .url p => p
    | .req r => r.parsedURL
  let method := suppliedMethod input init
  if bodySupplied input init && (method == "GET" || method == "HEAD") then
    .error "Request with GET/HEAD method cannot have body"
  else
    let inputBody : Option BodyVal :=
      match init.body with
      | some b => some b
      | none => match input with
        | .req r => r.body
        | .url _ => none
    let timeout := jsOrNat init.timeout
      (jsOrNat (match input with | .url _ => none | .req r => some r.timeout) 0)
    let size := jsOrNat init.size
      (jsOrNat (match input with | .url _ => none | .req r => some r.size) 0)
    let redirect := jsOrStr init.redirect
      (jsOrStr (match input with | .url _ => none | .req r => some r.redirect) "follow")
    let headers0 : Headers :=
      (match init.headers with
       | some h => some h
       | none => match input with
         | .req r => some r.headers
         | .url _ => none).getD ⟨[]⟩
    let ueOpt : Option Bool := requestUEOpt input init
    if ueOpt == some true && !electronAvailable then
      .error "Cannot use Electron/net module on Node.js!"
    else
      let useElectronNet := match ueOpt with
        | some b => b
        | none => electronAvailable
      let headers1 :=
        match init.body with
        | some b =>
          match extractContentType b with
          | some ct =>
            if headers0.has "Content-Type" then headers0
            else headers0.append "Content-Type" ct
          | none => headers0
        | none => headers0
      let follow := (match init.follow with
        | some n => some n
        | none => match input with
          | .req r => some r.follow
          | .url _ => none).getD 20
      let counter := jsOrNat init.counter
        (jsOrNat (match input with | .url _ => none | .req r => some r.counter) 0)
      let session := match init.session with
        | some s => some s
        | none => match input with
          | .req r => r.session
          | .url _ => none
      .ok { method := upperName method
            redirect := redirect
            headers := headers1
            chunkedEncoding := false
            useElectronNet := useElectronNet
            follow := follow
            counter := counter
            timeout := timeout
            size := size
            session := session
            body := inputBody
            parsedURL := parsedURL }

/-- The regex test of /^https?:$/ applied to parsedURL.protocol (request.js
line 135); testing undefined coerces to a non-matching string. -/
def protocolIsHttp : Option String → Bool
  | some p => p == "http:" || p == "https:"
  | none => false

/-- The regex test of /^(POST|PUT)$/i applied to the method (request.js
line 141): a full, ASCII-case-insensitive match of POST or PUT. -/
def postPutCI (m : String) : Bool :=
  upperName m == "POST" || upperName m == "PUT"

/-- The options record handed to the transport: the parsed-URL fields plus
method and the header list.  The raw() view of the header container is a
representation change only, so the record keeps the Headers value itself. -/
structure NodeOptions where
  protocol : Option String
  hostname : Option String
  href : String
  method : String
  headers : Headers
deriving DecidableEq

/-- The getNodeRequestOptions function of src/src/request.js (lines 121 to
175).  The source mutates request.chunkedEncoding in place; the embedding
returns the possibly-updated request next to the options record.  The local
headers value is a fresh copy of request.headers (new Headers(request.headers)
copies by value), so sets below never touch the request's own header map.  The
JavaScript truthiness test on contentLengthValue is an Option match because
the only strings ever assigned to it are non-empty decimal strings. -/
def getNodeRequestOptions (request : Request) :
    Except String (Request × NodeOptions) :=
  let parsedURL := request.parsedURL
  let headers := request.headers
  let headers := if headers.has "Accept" then headers
    else headers.set "Accept" "*/*"
  if !(jsTruthyStr parsedURL.protocol && jsTruthyStr parsedURL.hostname) then
    .error "Only absolute URLs are supported"
  else if !(protocolIsHttp parsedURL.protocol) then
    .error "Only HTTP(S) protocols are supported"
  else
    let contentLengthValue : Option String :=
      if request.body == none && postPutCI request.method then some "0"
      else none
    let contentLengthValue : Option String :=
      match request.body with
      | some b =>
        match getTotalBytes b with
        | some totalBytes => some (toString totalBytes)
        | none => contentLengthValue
      | none => contentLengthValue
    let result :=
      match contentLengthValue with
      | some v => (request, headers.set "Content-Length" v)
      | none => ({ request with chunkedEncoding := true }, headers)
    let request := result.1
    let headers := result.2
    let headers := if headers.has "User-Agent" then headers
      else headers.set "User-Agent"
        ("electron-fetch/1.0 "
          ++ (if request.useElectronNet then "electron" else "node")
          ++ " (+https://github.com/arantes555/electron-fetch)")
    let headers := headers.set "Accept-Encoding" "gzip,deflate"
    let headers := if headers.has "Connection" then headers
      else headers.set "Connection" "close"
    .ok (request,
      { protocol := parsedURL.protocol
        hostname := parsedURL.hostname
        href := parsedURL.href
        method := request.method
        headers := headers })

/-- Redirect code matching (index.js line 412). -/
def isRedirect (code : Nat) : Bool :=
  code == 301 || code == 302 || code == 303 || code == 307 || code == 308

/-- The transport response fields the redirect branch reads: the status code
and the raw location header (res.headers.location), which is absent or a
string. -/
structure NetResponse where
  statusCode : Nat
  location : Option String
deriving DecidableEq

/-- Outcome of the redirect branch of the response handler: fall through to
response finalization, reject with an error type, or follow a hop with the
mutated request and the next absolute URL. -/
inductive RedirectOutcome where
  | pass
  | reject (errType : String)
  | followHop (req : Request) (nextUrl : String)
deriving DecidableEq

/-- The redirect branch of the response handler (index.js lines 293 to 322),
embedded as a pure function.  resolveURL is Node's url.resolve, an external
collaborator, passed as a parameter.  The source mutates request in place; the
embedding rebuilds the record.  The missing-location test !res.headers.location
is JavaScript truthiness, so an empty-string location also rejects. -/
def handleRedirect (resolveURL : String → String → String)
    (request : Request) (res : NetResponse) : RedirectOutcome :=
  if isRedirect res.statusCode && !(request.redirect == "manual") then
    if request.redirect == "error" then .reject "no-redirect"
    else if request.follow ≤ request.counter then .reject "max-redirect"
    else if !(jsTruthyStr res.location) then .reject "invalid-redirect"
    else
      let request :=
        if res.statusCode == 303 ||
            ((res.statusCode == 301 || res.statusCode == 302)
              && request.method == "POST") then
          { request with
            method := "GET"
            body := none
            headers := request.headers.delete "content-length" }
        else request
      let request := { request with counter := request.counter + 1 }
      .followHop request (resolveURL request.url (res.location.getD ""))
  else .pass

/-- The decompression transforms the finalization step can wrap a body in. -/
inductive Transform where
  | identity
  | gunzip
  | inflate
  | inflateRaw
deriving DecidableEq

/-- The content-decoding decision of the response finalization step (index.js
lines 354 to 397).  Inputs are the request transport flag and method, the
Content-Encoding value from the normalized headers, the status code, and the
first body byte when the stream produces one.  The result is the transform the
body stream is piped through; none models the deflate branch waiting on a
first data chunk that never arrives, in which case the source never resolves
the response. -/
def decideDecoding (useElectronNet : Bool) (method : String)
    (codings : Option String) (statusCode : Nat) (firstByte : Option Nat) :
    Option Transform :=
  if !useElectronNet && !(method == "HEAD") && !(codings == none)
      && !(statusCode == 204) && !(statusCode == 304) then
    match codings with
    | some c =>
      if c == "gzip" || c == "x-gzip" then some .gunzip
      else if c == "deflate" || c == "x-deflate" then
        match firstByte with
        | some b =>
          if b &&& 0x0F == 0x08 then some .inflate else some .inflateRaw
        | none => none
      else some .identity
    | none => some .identity
  else some .identity

/-- Events racing to settle one fetch exchange: the armed timeout timer
firing, the transport delivering response headers, and a transport error. -/
inductive FetchEvent where
  | timerFires
  | response
  | transportError
deriving DecidableEq

/-- How the fetch promise of one exchange settles. -/
inductive Settle where
  | timeoutErr
  | headersReceived
  | systemErr
deriving DecidableEq

/-- State of the timeout race (index.js lines 256 to 290): whether the timer
set by setTimeout is still armed, whether req.abort() was called, and the
first settlement of the promise (a promise settles at most once, so later
resolve or reject calls are no-ops). -/
structure RaceState where
  timerArmed : Bool
  aborted : Bool
  settled : Option Settle
deriving DecidableEq

/-- Initial race state on transport start: the timer is armed exactly when
request.timeout is non-zero (if (request.timeout) setTimeout(...)). -/
def initRace (timeout : Nat) : RaceState :=
  { timerArmed := decide (0 < timeout), aborted := false, settled := none }

/-- One event of the race.  The timer callback calls req.abort() and rejects
with request-timeout, and a fired one-shot timer is no longer armed; the
response and error handlers both run clearTimeout(reqTimeout) before settling
(index.js lines 282 to 290), so either disarms the timer. -/
def raceStep (s : RaceState) (e : FetchEvent) : RaceState :=
  match e with
  | .timerFires =>
    if s.timerArmed then
      { timerArmed := false
        aborted := true
        settled := match s.settled with
          | none => some .timeoutErr
          | some x => some x }
    else s
  | .response =>
    { timerArmed := false
      aborted := s.aborted
      settled := match s.settled with
        | none => some .headersReceived
        | some x => some x }
  | .transportError =>
    { timerArmed := false
      aborted := s.aborted
      settled := match s.settled with
        | none => some .systemErr
        | some x => some x }

/-- The race over a whole event sequence, in arrival order. -/
def raceRun (timeout : Nat) (evs : List FetchEvent) : RaceState :=
  evs.foldl raceStep (initRace timeout)

/-- The contentLengthValue getNodeRequestOptions ends up with, extracted for
stating theorems: the known byte length as a decimal string when the body has
one, the string 0 for a missing body with a POST or PUT method, and null
otherwise. -/
def contentLength (r : Request) : Option String :=
  match r.body with
  | some b =>
    match getTotalBytes b with
    | some n => some (toString n)
    | none => none
  | none => if postPutCI r.method then some "0" else none

/-- The default User-Agent value of request.js line 158. -/
def uaString (useElectronNet : Bool) : String :=
  "electron-fetch/1.0 "
    ++ (if useElectronNet then "electron" else "node")
    ++ " (+https://github.com/arantes555/electron-fetch)"

/-- The header map getNodeRequestOptions hands to the transport, written as
the explicit stage chain of the source for use in the characterization
lemma below. -/
def headersFinal (r : Request) : Headers :=
  let h0 := if r.headers.has "Accept" then r.headers
    else r.headers.set "Accept" "*/*"
  let h1 := match contentLength r with
    | some v => h0.set "Content-Length" v
    | none => h0
  let h2 := if h1.has "User-Agent" then h1
    else h1.set "User-Agent" (uaString r.useElectronNet)
  let h3 := h2.set "Accept-Encoding" "gzip,deflate"
  if h3.has "Connection" then h3 else h3.set "Connection" "close"

/-- The request as getNodeRequestOptions leaves it: marked chunked exactly
when no content length was computed. -/
def chunkedUpdate (r : Request) : Request :=
  match contentLength r with
  | some _ => r
  | none => { r with chunkedEncoding := true }

/-- Whether a redirect outcome follows a hop. -/
def RedirectOutcome.isFollowHop : RedirectOutcome → Bool
  | .followHop _ _ => true
  | _ => false

/-- A concrete absolute http URL for witnesses. -/
def sampleURL : ParsedURL :=
  { protocol := some "http:", hostname := some "example.com",
    href := "http://example.com/" }

/-- An init record with every option left out, for witnesses. -/
def emptyInit : RequestInit :=
  { method := none, body := none, headers := none, redirect := none,
    follow := none, counter := none, timeout := none, size := none,
    useElectronNet := none, session := none, compress := none }

/-- A concrete POST request with a three-byte string body, for witnesses. -/
def sampleRequest : Request :=
  { method := "POST", redirect := "follow", headers := ⟨[]⟩,
    chunkedEncoding := false, useElectronNet := false, follow := 20,
    counter := 0, timeout := 0, size := 0, session := none,
    body := some (.bstring 3), parsedURL := sampleURL }

/-- The transport options getNodeRequestOptions computes for sampleRequest. -/
def sampleOptions : NodeOptions :=
  { protocol := some "http:", hostname := some "example.com",
    href := "http://example.com/", method := "POST",
    headers := ⟨[("Accept", ["*/*"]), ("Content-Length", ["3"]),
      ("User-Agent",
        ["electron-fetch/1.0 node (+https://github.com/arantes555/electron-fetch)"]),
      ("Accept-Encoding", ["gzip,deflate"]), ("Connection", ["close"])]⟩ }

/-- The request the redirect branch produces from sampleRequest on a 301. -/
def hopRequest : Request :=
  { method := "GET", redirect := "follow", headers := ⟨[]⟩,
    chunkedEncoding := false, useElectronNet := false, follow := 20,
    counter := 1, timeout := 0, size := 0, session := none,
    body := none, parsedURL := sampleURL }

/-- A concrete request with a stream body of unknown length, for witnesses. -/
def streamRequest : Request :=
  { method := "POST", redirect := "follow", headers := ⟨[]⟩,
    chunkedEncoding := false, useElectronNet := false, follow := 20,
    counter := 0, timeout := 0, size := 0, session := none,
    body := some .bstream, parsedURL := sampleURL }

/-- The transport options getNodeRequestOptions computes for streamRequest. -/
def streamOptions : NodeOptions :=
  { protocol := some "http:", hostname := some "example.com",
    href := "http://example.com/", method := "POST",
    headers := ⟨[("Accept", ["*/*"]),
      ("User-Agent",
        ["electron-fetch/1.0 node (+https://github.com/arantes555/electron-fetch)"]),
      ("Accept-Encoding", ["gzip,deflate"]), ("Connection", ["close"])]⟩ }

/-! Helper lemmas about the list operations underlying the header container. -/

theorem find_filter_append_self {α : Type} (l : List α) (p : α → Bool) (x : α)
    (hx : p x = true) :
    ((l.filter fun a => !(p a)) ++ [x]).find? p = some x := by
  induction l with
  | nil => simp [List.find?, hx]
  | cons a l ih =>
    by_cases ha : p a
    · simp [List.filter, ha, ih]
    · simp only [List.filter, ha]
      simp only [Bool.not_false, List.cons_append, List.find?]
      simp [ha, ih]

theorem find_filter_append_other {α : Type} (l : List α) (p q : α → Bool)
    (x : α) (hqx : q x = false) (himp : ∀ a, q a = true → p a = false) :
    ((l.filter fun a => !(p a)) ++ [x]).find? q = l.find? q := by
  induction l with
  | nil => simp [List.find?, hqx]
  | cons a l ih =>
    by_cases hqa : q a
    · have hpa : p a = false := himp a hqa
      simp [List.filter, hpa, List.find?, hqa]
    · by_cases hpa : p a
      · simp only [List.filter, hpa]
        simp only [Bool.not_true, List.find?]
        rw [ih]
        simp [List.find?, hqa]
      · simp only [List.filter, hpa]
        simp only [Bool.not_false, List.cons_append, List.find?]
        simp only [hqa]
        exact ih

theorem any_filter_of_imp {α : Type} (l : List α) (p q : α → Bool)
    (himp : ∀ a, q a = true → p a = false) :
    (l.filter fun a => !(p a)).any q = l.any q := by
  induction l with
  | nil => simp
  | cons a l ih =>
    by_cases hqa : q a
    · have hpa : p a = false := himp a hqa
      simp [List.filter, hpa, List.any, hqa]
    · by_cases hpa : p a
      · simp [List.filter, hpa, List.any, hqa, ih]
      · simp [List.filter, hpa, List.any, hqa, ih]

theorem find_filter_not_none {α : Type} (l : List α) (p : α → Bool) :
    (l.filter fun a => !(p a)).find? p = none := by
  induction l with
  | nil => simp
  | cons a l ih =>
    by_cases hpa : p a
    · simp [List.filter, hpa, ih]
    · simp [List.filter, hpa, List.find?, ih]

/-! Behaviour of the header container operations. -/

theorem Headers.get_set_self (h : Headers) (n n' v : String)
    (hn : lowerName n' = lowerName n) :
    (h.set n v).get n' = some v := by
  unfold Headers.get Headers.set Headers.delete
  rw [show (fun (e : String × List String) => lowerName e.1 == lowerName n')
        = (fun e => lowerName e.1 == lowerName n) from
      funext (fun e => by rw [hn])]
  rw [find_filter_append_self _ _ _ (by simp)]
  rfl

theorem Headers.get_set_other (h : Headers) (n n' v : String)
    (hn : lowerName n' ≠ lowerName n) :
    (h.set n v).get n' = h.get n' := by
  unfold Headers.get Headers.set Headers.delete
  rw [find_filter_append_other _ _ _ _
        (by simp; exact fun hc => hn hc.symm)
        (fun a ha => by
          simp only [beq_iff_eq] at ha ⊢
          rw [ha]
          simp [hn])]

theorem Headers.has_set_other (h : Headers) (n n' v : String)
    (hn : lowerName n' ≠ lowerName n) :
    (h.set n v).has n' = h.has n' := by
  unfold Headers.has Headers.set Headers.delete
  rw [List.any_append]
  rw [any_filter_of_imp _ _ _ (fun a ha => by
        simp only [beq_iff_eq] at ha ⊢
        rw [ha]
        simp [hn])]
  simp
  intro hc
  exact absurd hc.symm hn

theorem Headers.get_delete_self (h : Headers) (n n' : String)
    (hn : lowerName n' = lowerName n) :
    (h.delete n).get n' = none := by
  unfold Headers.get Headers.delete
  rw [show (fun (e : String × List String) => lowerName e.1 == lowerName n')
        = (fun e => lowerName e.1 == lowerName n) from
      funext (fun e => by rw [hn])]
  rw [find_filter_not_none]
  rfl

theorem Headers.get_ite_set_other {c : Prop} [Decidable c] (h : Headers)
    (n n' v : String) (hn : lowerName n' ≠ lowerName n) :
    (if c then h else h.set n v).get n' = h.get n' := by
  split
  · rfl
  · exact Headers.get_set_other h n n' v hn

theorem Headers.has_ite_set_other {c : Prop} [Decidable c] (h : Headers)
    (n n' v : String) (hn : lowerName n' ≠ lowerName n) :
    (if c then h else h.set n v).has n' = h.has n' := by
  split
  · rfl
  · exact Headers.has_set_other h n n' v hn

/-! Characterization of getNodeRequestOptions on a valid URL. -/

theorem getNodeRequestOptions_eq (r : Request)
    (hv : (jsTruthyStr r.parsedURL.protocol
            && jsTruthyStr r.parsedURL.hostname) = true)
    (hp : protocolIsHttp r.parsedURL.protocol = true) :
    getNodeRequestOptions r =
      .ok (chunkedUpdate r,
        { protocol := r.parsedURL.protocol, hostname := r.parsedURL.hostname,
          href := r.parsedURL.href, method := (chunkedUpdate r).method,
          headers := headersFinal r }) := by
  unfold getNodeRequestOptions chunkedUpdate headersFinal contentLength uaString
  simp only [hv, hp, Bool.not_true, Bool.false_eq_true, if_false]
  cases hb : r.body with
  | none =>
    by_cases hm : postPutCI r.method
    · simp [hb, hm]
    · simp [hb, hm]
  | some b =>
    cases ht : getTotalBytes b with
    | none => simp [hb, ht]
    | some n => simp [hb, ht]

theorem getNodeRequestOptions_valid (r : Request) (pr : Request × NodeOptions)
    (h : getNodeRequestOptions r = .ok pr) :
    (jsTruthyStr r.parsedURL.protocol
        && jsTruthyStr r.parsedURL.hostname) = true
      ∧ protocolIsHttp r.parsedURL.protocol = true := by
  unfold getNodeRequestOptions at h
  by_cases h1 : (jsTruthyStr r.parsedURL.protocol
      && jsTruthyStr r.parsedURL.hostname) = true
  · by_cases h2 : protocolIsHttp r.parsedURL.protocol = true
    · exact ⟨h1, h2⟩
    · simp only [h1, Bool.not_true, Bool.false_eq_true, if_false] at h
      rw [if_pos] at h
      · exact absurd h (by simp)
      · simp [h2]
  · simp only at h
    rw [if_pos] at h
    · exact absurd h (by simp)
    · simp [h1]

/-! Projections of the transmitted header map. -/

theorem headersFinal_get_contentLength (r : Request) :
    (headersFinal r).get "Content-Length" =
      match contentLength r with
      | some v => some v
      | none => r.headers.get "Content-Length" := by
  simp only [headersFinal]
  rw [Headers.get_ite_set_other _ _ _ _ (by decide)]
  rw [Headers.get_set_other _ _ _ _ (by decide)]
  rw [Headers.get_ite_set_other _ _ _ _ (by decide)]
  cases hc : contentLength r with
  | none =>
    simp only
    rw [Headers.get_ite_set_other _ _ _ _ (by decide)]
  | some v =>
    simp only
    rw [Headers.get_set_self _ _ _ _ (by decide)]

theorem headersFinal_get_acceptEncoding (r : Request) :
    (headersFinal r).get "Accept-Encoding" = some "gzip,deflate" := by
  simp only [headersFinal]
  rw [Headers.get_ite_set_other _ _ _ _ (by decide)]
  rw [Headers.get_set_self _ _ _ _ (by decide)]

theorem headersFinal_get_accept (r : Request) :
    (headersFinal r).get "Accept" =
      if r.headers.has "Accept" then r.headers.get "Accept" else some "*/*" := by
  simp only [headersFinal]
  rw [Headers.get_ite_set_other _ _ _ _ (by decide)]
  rw [Headers.get_set_other _ _ _ _ (by decide)]
  rw [Headers.get_ite_set_other _ _ _ _ (by decide)]
  cases hc : contentLength r with
  | none =>
    simp only
    by_cases ha : r.headers.has "Accept" = true
    · rw [if_pos ha, if_pos ha]
    · rw [if_neg ha, if_neg ha]
      exact Headers.get_set_self _ _ _ _ rfl
  | some v =>
    simp only
    rw [Headers.get_set_other _ _ _ _ (by decide)]
    by_cases ha : r.headers.has "Accept" = true
    · rw [if_pos ha, if_pos ha]
    · rw [if_neg ha, if_neg ha]
      exact Headers.get_set_self _ _ _ _ rfl

theorem headersFinal_get_userAgent (r : Request) :
    (headersFinal r).get "User-Agent" =
      if r.headers.has "User-Agent" then r.headers.get "User-Agent"
      else some (uaString r.useElectronNet) := by
  simp only [headersFinal]
  rw [Headers.get_ite_set_other _ _ _ _ (by decide)]
  rw [Headers.get_set_other _ _ _ _ (by decide)]
  cases hc : contentLength r with
  | none =>
    simp only
    rw [Headers.has_ite_set_other _ _ _ _ (by decide)]
    by_cases hu : r.headers.has "User-Agent" = true
    · rw [if_pos hu, if_pos hu]
      exact Headers.get_ite_set_other _ _ _ _ (by decide)
    · rw [if_neg hu, if_neg hu]
      exact Headers.get_set_self _ _ _ _ rfl
  | some v =>
    simp only
    rw [Headers.has_set_other _ _ _ _ (by decide)]
    rw [Headers.has_ite_set_other _ _ _ _ (by decide)]
    by_cases hu : r.headers.has "User-Agent" = true
    · rw [if_pos hu, if_pos hu]
      rw [Headers.get_set_other _ _ _ _ (by decide)]
      exact Headers.get_ite_set_other _ _ _ _ (by decide)
    · rw [if_neg hu, if_neg hu]
      exact Headers.get_set_self _ _ _ _ rfl

theorem headersFinal_get_connection (r : Request) :
    (headersFinal r).get "Connection" =
      if r.headers.has "Connection" then r.headers.get "Connection"
      else some "close" := by
  simp only [headersFinal]
  rw [Headers.has_set_other _ _ _ _ (by decide)]
  cases hc : contentLength r with
  | none =>
    simp only
    rw [Headers.has_ite_set_other _ _ _ _ (by decide)]
    rw [Headers.has_ite_set_other _ _ _ _ (by decide)]
    by_cases hco : r.headers.has "Connection" = true
    · rw [if_pos hco, if_pos hco]
      rw [Headers.get_set_other _ _ _ _ (by decide)]
      rw [Headers.get_ite_set_other _ _ _ _ (by decide)]
      exact Headers.get_ite_set_other _ _ _ _ (by decide)
    · rw [if_neg hco, if_neg hco]
      exact Headers.get_set_self _ _ _ _ rfl
  | some v =>
    simp only
    rw [Headers.has_ite_set_other _ _ _ _ (by decide)]
    rw [Headers.has_set_other _ _ _ _ (by decide)]
    rw [Headers.has_ite_set_other _ _ _ _ (by decide)]
    by_cases hco : r.headers.has "Connection" = true
    · rw [if_pos hco, if_pos hco]
      rw [Headers.get_set_other _ _ _ _ (by decide)]
      rw [Headers.get_ite_set_other _ _ _ _ (by decide)]
      rw [Headers.get_set_other _ _ _ _ (by decide)]
      exact Headers.get_ite_set_other _ _ _ _ (by decide)
    · rw [if_neg hco, if_neg hco]
      exact Headers.get_set_self _ _ _ _ rfl

theorem chunkedUpdate_headers (r : Request) :
    (chunkedUpdate r).headers = r.headers := by
  unfold chunkedUpdate
  cases hc : contentLength r <;> rfl

/-! Preservation lemmas for the timeout race. -/

theorem raceStep_settled_some (s : RaceState) (e : FetchEvent) (x : Settle)
    (h : s.settled = some x) : (raceStep s e).settled = some x := by
  cases e with
  | timerFires =>
    simp only [raceStep]
    split
    · simp [h]
    · exact h
  | response => simp [raceStep, h]
  | transportError => simp [raceStep, h]

theorem raceFold_settled (evs : List FetchEvent) (s : RaceState) (x : Settle)
    (h : s.settled = some x) : (evs.foldl raceStep s).settled = some x := by
  induction evs generalizing s with
  | nil => exact h
  | cons e evs ih => exact ih _ (raceStep_settled_some s e x h)

theorem raceStep_aborted (s : RaceState) (e : FetchEvent)
    (h : s.aborted = true) : (raceStep s e).aborted = true := by
  cases e with
  | timerFires =>
    simp only [raceStep]
    split
    · rfl
    · exact h
  | response => exact h
  | transportError => exact h

theorem raceFold_aborted (evs : List FetchEvent) (s : RaceState)
    (h : s.aborted = true) : (evs.foldl raceStep s).aborted = true := by
  induction evs generalizing s with
  | nil => exact h
  | cons e evs ih => exact ih _ (raceStep_aborted s e h)

/-! Claim theorems. -/

/-- Claim C1: for every redirect response being followed, a 303 status, or a
301 or 302 status with a POST method, rewrites the method to GET, drops the
body and removes the Content-Length header before the next hop; every other
followed status/method combination leaves method and body unchanged; in all
followed cases the counter is incremented and the next URL is the Location
value resolved against the current URL. -/
theorem redirect_hop_method_rewrite (resolve : String → String → String)
    (req R : Request) (res : NetResponse) (U : String)
    (h : handleRedirect resolve req res = .followHop R U) :
    R.counter = req.counter + 1
    ∧ U = resolve req.url (res.location.getD "")
    ∧ ((res.statusCode = 303 ∨
          ((res.statusCode = 301 ∨ res.statusCode = 302)
            ∧ req.method = "POST")) →
        R.method = "GET" ∧ R.body = none
          ∧ R.headers.get "Content-Length" = none)
    ∧ (¬(res.statusCode = 303 ∨
          ((res.statusCode = 301 ∨ res.statusCode = 302)
            ∧ req.method = "POST")) →
        R.method = req.method ∧ R.body = req.body
          ∧ R.headers = req.headers) := by
  unfold handleRedirect at h
  by_cases h0 : (isRedirect res.statusCode && !(req.redirect == "manual")) = true
  · rw [if_pos h0] at h
    by_cases h1 : (req.redirect == "error") = true
    · rw [if_pos h1] at h
      exact absurd h (by simp)
    · rw [if_neg h1] at h
      by_cases h2 : req.follow ≤ req.counter
      · rw [if_pos h2] at h
        exact absurd h (by simp)
      · rw [if_neg h2] at h
        by_cases h3 : (!jsTruthyStr res.location) = true
        · rw [if_pos h3] at h
          exact absurd h (by simp)
        · rw [if_neg h3] at h
          by_cases hC : (res.statusCode == 303 ||
              ((res.statusCode == 301 || res.statusCode == 302)
                && req.method == "POST")) = true
          · rw [if_pos hC] at h
            have hCP : res.statusCode = 303 ∨
                ((res.statusCode = 301 ∨ res.statusCode = 302)
                  ∧ req.method = "POST") := by simpa using hC
            injection h with hR hU
            subst hR
            subst hU
            refine ⟨rfl, rfl, ?_, ?_⟩
            · intro _
              exact ⟨rfl, rfl, Headers.get_delete_self _ _ _ (by decide)⟩
            · intro hnP
              exact absurd hCP hnP
          · rw [if_neg hC] at h
            have hCP : ¬(res.statusCode = 303 ∨
                ((res.statusCode = 301 ∨ res.statusCode = 302)
                  ∧ req.method = "POST")) := by
              simpa using hC
            injection h with hR hU
            subst hR
            subst hU
            refine ⟨rfl, rfl, ?_, ?_⟩
            · intro hP
              exact absurd hP hCP
            · intro _
              exact ⟨rfl, rfl, rfl⟩
  · rw [if_neg h0] at h
    exact absurd h (by simp)

/-- Witness for the redirect rewrite theorem: a POST request meeting a 301
with a Location follows the hop as a GET with no body and counter one. -/
theorem redirect_hop_method_rewrite_witness :
    handleRedirect (fun _ l => l) sampleRequest
        { statusCode := 301, location := some "http://next/" }
      = .followHop hopRequest "http://next/"
    ∧ hopRequest.counter = sampleRequest.counter + 1
    ∧ hopRequest.method = "GET" := by
  refine ⟨by decide, ?_, ?_⟩
  · exact (redirect_hop_method_rewrite (fun _ l => l) sampleRequest hopRequest
      { statusCode := 301, location := some "http://next/" } "http://next/"
      (by decide)).1
  · exact ((redirect_hop_method_rewrite (fun _ l => l) sampleRequest hopRequest
      { statusCode := 301, location := some "http://next/" } "http://next/"
      (by decide)).2.2.1 (Or.inr ⟨Or.inl rfl, rfl⟩)).1

/-- Claim C2: on a redirect status with a non-manual policy the handler
rejects in order: policy error gives a no-redirect error regardless of
counter or Location; then a counter at or above the follow limit gives a
max-redirect error; then a missing Location gives an invalid-redirect error;
otherwise the hop is followed. -/
theorem redirect_rejection_precedence (resolve : String → String → String)
    (req : Request) (res : NetResponse)
    (hred : isRedirect res.statusCode = true)
    (hman : req.redirect ≠ "manual") :
    (req.redirect = "error" →
        handleRedirect resolve req res = .reject "no-redirect")
    ∧ (req.redirect ≠ "error" → req.follow ≤ req.counter →
        handleRedirect resolve req res = .reject "max-redirect")
    ∧ (req.redirect ≠ "error" → req.counter < req.follow →
        jsTruthyStr res.location = false →
        handleRedirect resolve req res = .reject "invalid-redirect")
    ∧ (req.redirect ≠ "error" → req.counter < req.follow →
        jsTruthyStr res.location = true →
        (handleRedirect resolve req res).isFollowHop = true) := by
  unfold handleRedirect
  rw [if_pos (by simp [hred, hman])]
  refine ⟨?_, ?_, ?_, ?_⟩
  · intro he
    rw [if_pos (by simp [he])]
  · intro he hcnt
    rw [if_neg (by simp [he]), if_pos hcnt]
  · intro he hcnt hloc
    rw [if_neg (by simp [he]), if_neg (by omega), if_pos (by simp [hloc])]
  · intro he hcnt hloc
    rw [if_neg (by simp [he]), if_neg (by omega), if_neg (by simp [hloc])]
    split <;> rfl

/-- Witness for the rejection order theorem: an error-policy request meeting
a 301 without Location rejects no-redirect even though the Location check
would also fire. -/
theorem redirect_rejection_precedence_witness :
    handleRedirect (fun _ l => l) { sampleRequest with redirect := "error" }
        { statusCode := 301, location := none } = .reject "no-redirect"
    ∧ isRedirect 301 = true :=
  ⟨(redirect_rejection_precedence (fun _ l => l)
      { sampleRequest with redirect := "error" }
      { statusCode := 301, location := none } (by decide) (by decide)).1 rfl,
    by decide⟩

/-- Claim C3: the body is piped through a decompression transform only when
no skip condition holds (electron transport, HEAD method, no Content-Encoding
header, status 204 or 304); when decoding applies, gzip and x-gzip pick
gunzip, deflate and x-deflate pick zlib inflate when the first body byte b
has (b and 15) = 8 and raw inflate otherwise, and any other token leaves the
stream unmodified. -/
theorem content_decoding_selection (ue : Bool) (m : String)
    (codings : Option String) (status : Nat) (fb : Option Nat) :
    ((ue = true ∨ m = "HEAD" ∨ codings = none ∨ status = 204 ∨ status = 304) →
        decideDecoding ue m codings status fb = some .identity)
    ∧ (ue = false → m ≠ "HEAD" → status ≠ 204 → status ≠ 304 →
        ∀ c, codings = some c →
          ((c = "gzip" ∨ c = "x-gzip") →
              decideDecoding ue m codings status fb = some .gunzip)
          ∧ ((c = "deflate" ∨ c = "x-deflate") →
              ∀ b, fb = some b →
                decideDecoding ue m codings status fb
                  = some (if b &&& 0x0F == 0x08 then .inflate
                      else .inflateRaw))
          ∧ (c ≠ "gzip" → c ≠ "x-gzip" → c ≠ "deflate" → c ≠ "x-deflate" →
              decideDecoding ue m codings status fb = some .identity)) := by
  constructor
  · intro hskip
    unfold decideDecoding
    rcases hskip with h | h | h | h | h
    · rw [if_neg (by simp [h])]
    · rw [if_neg (by simp [h])]
    · rw [if_neg (by simp [h])]
    · rw [if_neg (by simp [h])]
    · rw [if_neg (by simp [h])]
  · intro hue hm h204 h304 c hc
    subst hue
    subst hc
    unfold decideDecoding
    rw [if_pos (by simp [hm, h204, h304])]
    refine ⟨?_, ?_, ?_⟩
    · intro hg
      rcases hg with hg | hg <;> subst hg <;> simp
    · intro hd b hb
      subst hb
      rcases hd with hd | hd <;> subst hd <;>
        cases hb8 : (b &&& 0x0F == 0x08) <;> simp [hb8]
    · intro h1 h2 h3 h4
      simp [h1, h2, h3, h4]

/-- Witness for the decoding selection theorem across the four token
families. -/
theorem content_decoding_selection_witness :
    decideDecoding true "GET" (some "gzip") 200 none = some .identity
    ∧ decideDecoding false "GET" (some "gzip") 200 none = some .gunzip
    ∧ decideDecoding false "GET" (some "deflate") 200 (some 120)
        = some (if 120 &&& 0x0F == 0x08 then .inflate else .inflateRaw)
    ∧ decideDecoding false "GET" (some "br") 200 none = some .identity := by
  refine ⟨?_, ?_, ?_, ?_⟩
  · exact (content_decoding_selection true "GET" (some "gzip") 200 none).1
      (Or.inl rfl)
  · exact ((content_decoding_selection false "GET" (some "gzip") 200 none).2
      rfl (by decide) (by decide) (by decide) "gzip" rfl).1 (Or.inl rfl)
  · exact (((content_decoding_selection false "GET" (some "deflate") 200
      (some 120)).2 rfl (by decide) (by decide) (by decide)
        "deflate" rfl).2.1 (Or.inl rfl)) 120 rfl
  · exact ((content_decoding_selection false "GET" (some "br") 200 none).2
      rfl (by decide) (by decide) (by decide) "br" rfl).2.2
      (by decide) (by decide) (by decide) (by decide)

/-- Claim C4: a statically known body byte length is transmitted exactly as
Content-Length, overwriting any caller value; a missing body with POST or PUT
transmits the string 0; otherwise the step sets no Content-Length and marks
the request as chunked. -/
theorem content_length_computation (r r' : Request) (opts : NodeOptions)
    (h : getNodeRequestOptions r = .ok (r', opts)) :
    (∀ b n, r.body = some b → getTotalBytes b = some n →
        opts.headers.get "Content-Length" = some (toString n)
          ∧ r'.chunkedEncoding = r.chunkedEncoding) ∧
    (r.body = none → postPutCI r.method = true →
        opts.headers.get "Content-Length" = some "0"
          ∧ r'.chunkedEncoding = r.chunkedEncoding) ∧
    ((r.body = none ∧ postPutCI r.method = false) ∨
        (∃ b, r.body = some b ∧ getTotalBytes b = none) →
        opts.headers.get "Content-Length" = r.headers.get "Content-Length"
          ∧ r'.chunkedEncoding = true) := by
  obtain ⟨hv, hp⟩ := getNodeRequestOptions_valid r (r', opts) h
  rw [getNodeRequestOptions_eq r hv hp] at h
  injection h with h
  injection h with h1 h2
  subst h1
  subst h2
  refine ⟨?_, ?_, ?_⟩
  · intro b n hb ht
    have hc : contentLength r = some (toString n) := by
      simp [contentLength, hb, ht]
    constructor
    · show (headersFinal r).get "Content-Length" = _
      rw [headersFinal_get_contentLength, hc]
    · show (chunkedUpdate r).chunkedEncoding = _
      unfold chunkedUpdate
      rw [hc]
  · intro hb hm
    have hc : contentLength r = some "0" := by
      simp [contentLength, hb, hm]
    constructor
    · show (headersFinal r).get "Content-Length" = _
      rw [headersFinal_get_contentLength, hc]
    · show (chunkedUpdate r).chunkedEncoding = _
      unfold chunkedUpdate
      rw [hc]
  · intro hor
    have hc : contentLength r = none := by
      rcases hor with ⟨hb, hm⟩ | ⟨b, hb, ht⟩
      · simp [contentLength, hb, hm]
      · simp [contentLength, hb, ht]
    constructor
    · show (headersFinal r).get "Content-Length" = _
      rw [headersFinal_get_contentLength, hc]
    · show (chunkedUpdate r).chunkedEncoding = _
      unfold chunkedUpdate
      rw [hc]

/-- Witness for the content-length theorem: a three-byte string body
transmits Content-Length 3. -/
theorem content_length_computation_witness :
    getNodeRequestOptions sampleRequest = .ok (sampleRequest, sampleOptions)
    ∧ sampleOptions.headers.get "Content-Length" = some (toString 3) :=
  ⟨by decide,
    ((content_length_computation sampleRequest sampleRequest sampleOptions
      (by decide)).1 (BodyVal.bstring 3) 3 rfl rfl).1⟩

/-- Claim C5 as amended: Accept, User-Agent and Connection defaults are
injected only when the caller has not supplied that header, but
Accept-Encoding is always set to gzip,deflate, overwriting any
caller-supplied value. -/
theorem default_header_injection (r r' : Request) (opts : NodeOptions)
    (h : getNodeRequestOptions r = .ok (r', opts)) :
    (r.headers.has "Accept" = true →
        opts.headers.get "Accept" = r.headers.get "Accept")
    ∧ (r.headers.has "Accept" = false →
        opts.headers.get "Accept" = some "*/*")
    ∧ (r.headers.has "User-Agent" = true →
        opts.headers.get "User-Agent" = r.headers.get "User-Agent")
    ∧ (r.headers.has "User-Agent" = false →
        opts.headers.get "User-Agent" = some (uaString r.useElectronNet))
    ∧ (r.headers.has "Connection" = true →
        opts.headers.get "Connection" = r.headers.get "Connection")
    ∧ (r.headers.has "Connection" = false →
        opts.headers.get "Connection" = some "close")
    ∧ opts.headers.get "Accept-Encoding" = some "gzip,deflate" := by
  obtain ⟨hv, hp⟩ := getNodeRequestOptions_valid r (r', opts) h
  rw [getNodeRequestOptions_eq r hv hp] at h
  injection h with h
  injection h with h1 h2
  subst h1
  subst h2
  refine ⟨?_, ?_, ?_, ?_, ?_, ?_, ?_⟩
  · intro ha
    show (headersFinal r).get "Accept" = _
    rw [headersFinal_get_accept, if_pos ha]
  · intro ha
    show (headersFinal r).get "Accept" = _
    rw [headersFinal_get_accept, if_neg (by simp [ha])]
  · intro ha
    show (headersFinal r).get "User-Agent" = _
    rw [headersFinal_get_userAgent, if_pos ha]
  · intro ha
    show (headersFinal r).get "User-Agent" = _
    rw [headersFinal_get_userAgent, if_neg (by simp [ha])]
  · intro ha
    show (headersFinal r).get "Connection" = _
    rw [headersFinal_get_connection, if_pos ha]
  · intro ha
    show (headersFinal r).get "Connection" = _
    rw [headersFinal_get_connection, if_neg (by simp [ha])]
  · show (headersFinal r).get "Accept-Encoding" = _
    exact headersFinal_get_acceptEncoding r

/-- Witness for the header injection theorem: with no caller headers the
Accept default is injected. -/
theorem default_header_injection_witness :
    sampleRequest.headers.has "Accept" = false
    ∧ sampleOptions.headers.get "Accept" = some "*/*" :=
  ⟨by decide,
    (default_header_injection sampleRequest sampleRequest sampleOptions
      (by decide)).2.1 (by decide)⟩

/-- Counterexample to claim C5 as stated: a caller-supplied Accept-Encoding
of identity is transmitted as gzip,deflate, not unchanged. -/
theorem accept_encoding_overwritten :
    (getNodeRequestOptions
        { sampleRequest with
          headers := ⟨[("Accept-Encoding", ["identity"])]⟩ }).map
      (fun p => p.2.headers.get "Accept-Encoding") = .ok (some "gzip,deflate")
    ∧ ({ sampleRequest with
          headers := ⟨[("Accept-Encoding", ["identity"])]⟩ } : Request).headers.get
        "Accept-Encoding" = some "identity" := by
  constructor
  · decide
  · decide

/-- Claim C6 as amended: the body validation compares the supplied method
string before uppercasing and case-sensitively, so exactly GET or HEAD with a
body fails with the type error while any other spelling succeeds, even one
that normalizes to GET or HEAD. -/
theorem body_method_validation (avail : Bool) (input : RequestInput)
    (init : RequestInit) (hbody : bodySupplied input init = true) :
    (suppliedMethod input init = "GET" ∨ suppliedMethod input init = "HEAD" →
        requestNew avail input init
          = .error "Request with GET/HEAD method cannot have body")
    ∧ (suppliedMethod input init ≠ "GET" → suppliedMethod input init ≠ "HEAD" →
        (requestUEOpt input init == some true && !avail) = false →
        (requestNew avail input init).isOk = true
          ∧ ∀ r, requestNew avail input init = .ok r →
              r.method = upperName (suppliedMethod input init)
                ∧ r.body ≠ none) := by
  constructor
  · intro hm
    unfold requestNew
    rw [if_pos (by rcases hm with hm | hm <;> simp [hbody, hm])]
  · intro hm1 hm2 hg
    unfold requestNew
    rw [if_neg (by simp [hm1, hm2]), if_neg (by simp [hg])]
    refine ⟨rfl, ?_⟩
    intro r hr
    injection hr with hr
    subst hr
    refine ⟨rfl, ?_⟩
    cases hib : init.body with
    | some b => simp [hib]
    | none =>
      simp only [hib]
      cases input with
      | url p =>
        exfalso
        rw [bodySupplied, hib] at hbody
        simp at hbody
      | req r0 =>
        rw [bodySupplied, hib] at hbody
        simpa using hbody

/-- Witness for the validation theorem: an exact GET with a body fails with
the type error. -/
theorem body_method_validation_witness :
    bodySupplied (.url sampleURL)
        { emptyInit with method := some "GET", body := some (.bstring 3) }
      = true
    ∧ requestNew false (.url sampleURL)
        { emptyInit with method := some "GET", body := some (.bstring 3) }
      = .error "Request with GET/HEAD method cannot have body" :=
  ⟨by decide,
    (body_method_validation false (.url sampleURL)
      { emptyInit with method := some "GET", body := some (.bstring 3) }
      (by decide)).1 (Or.inl (by decide))⟩

/-- Counterexample to claim C6 as stated: supplying method get in lower case
together with a body succeeds and yields a request whose method is GET and
whose body is non-null, violating the GET-no-body invariant. -/
theorem lowercase_get_body_accepted :
    (requestNew false (.url sampleURL)
        { emptyInit with method := some "get", body := some (.bstring 3) }).map
      (fun r => (r.method, r.body))
      = .ok ("GET", some (BodyVal.bstring 3)) := by decide

/-- Claim C7: modelling the exchange as the ordered event race of the source
handlers, a fetch with a positive timeout whose timer fires before headers or
a transport error settles as a request-timeout rejection with the transport
aborted, and headers or an error arriving first settle the exchange so that a
later timer event can never produce a timeout rejection. -/
theorem timeout_race_first_event (timeout : Nat) (evs : List FetchEvent) :
    (0 < timeout →
        (raceRun timeout (.timerFires :: evs)).settled = some .timeoutErr
          ∧ (raceRun timeout (.timerFires :: evs)).aborted = true)
    ∧ (raceRun timeout (.response :: evs)).settled = some .headersReceived
    ∧ (raceRun timeout (.transportError :: evs)).settled = some .systemErr := by
  refine ⟨?_, ?_, ?_⟩
  · intro ht
    have h1 : raceStep (initRace timeout) .timerFires
        = { timerArmed := false, aborted := true,
            settled := some .timeoutErr } := by
      simp [raceStep, initRace, ht]
    unfold raceRun
    rw [List.foldl_cons, h1]
    exact ⟨raceFold_settled _ _ _ rfl, raceFold_aborted _ _ rfl⟩
  · unfold raceRun
    rw [List.foldl_cons]
    exact raceFold_settled _ _ _ (by simp [raceStep, initRace])
  · unfold raceRun
    rw [List.foldl_cons]
    exact raceFold_settled _ _ _ (by simp [raceStep, initRace])

/-- Witness for the timeout race theorem at a 100ms timeout. -/
theorem timeout_race_first_event_witness :
    (0 < 100
      ∧ (raceRun 100 [FetchEvent.timerFires]).settled = some .timeoutErr
      ∧ (raceRun 100 [FetchEvent.timerFires]).aborted = true)
    ∧ (raceRun 100 [FetchEvent.response]).settled = some .headersReceived := by
  refine ⟨⟨by decide, ?_, ?_⟩, ?_⟩
  · exact ((timeout_race_first_event 100 []).1 (by decide)).1
  · exact ((timeout_race_first_event 100 []).1 (by decide)).2
  · exact (timeout_race_first_event 100 []).2.1

/-- Claim C9 as amended: the code has no compress option; request
construction ignores a compress entry entirely, and the decoding decision
depends only on transport, method, Content-Encoding and status, so a gzip
response is decompressed whatever compress was set to. -/
theorem compress_option_ignored (avail : Bool) (input : RequestInput)
    (init : RequestInit) (c : Option Bool) :
    requestNew avail input { init with compress := c }
        = requestNew avail input init
    ∧ decideDecoding false "GET" (some "gzip") 200 none
        = some Transform.gunzip := by
  constructor
  · cases init
    rfl
  · decide

/-- Counterexample to claim C9 as stated: a request built with compress false
still has its gzip response body piped through the gunzip transform. -/
theorem compress_false_still_decompresses :
    (requestNew false (.url sampleURL)
        { emptyInit with compress := some false }).map
      (fun r => decideDecoding r.useElectronNet r.method (some "gzip") 200 none)
      = .ok (some Transform.gunzip) := by decide

/-- Claim C10: getNodeRequestOptions works on a value copy of the header map,
so the request object it returns still carries exactly the caller's header
entries. -/
theorem request_headers_unmodified (r r' : Request) (opts : NodeOptions)
    (h : getNodeRequestOptions r = .ok (r', opts)) :
    r'.headers = r.headers := by
  obtain ⟨hv, hp⟩ := getNodeRequestOptions_valid r (r', opts) h
  rw [getNodeRequestOptions_eq r hv hp] at h
  injection h with h
  injection h with h1 h2
  rw [← h1, chunkedUpdate_headers]

/-- Witness for the header preservation theorem on a stream-body request,
whose chunked flag is the only field the call updates. -/
theorem request_headers_unmodified_witness :
    getNodeRequestOptions streamRequest
        = .ok ({ streamRequest with chunkedEncoding := true }, streamOptions)
    ∧ ({ streamRequest with chunkedEncoding := true } : Request).headers
        = streamRequest.headers :=
  ⟨by decide,
    request_headers_unmodified streamRequest
      { streamRequest with chunkedEncoding := true } streamOptions
      (by decide)⟩

end ElectronFetch
